import Mathlib

/-!
Shallow embedding of the module-progression and quiz-grading engine of
`backend/server.py` (operations `get_module_detail`, `get_module_quiz`,
`submit_quiz`, `get_course_progress`), together with proofs of the
specification claims about it.

Modelling conventions:
* The Mongo store is a record of lists; `find_one` is `List.find?` (first
  match in natural/insertion order), `insert_one` appends, `update_one`
  updates the first matching record in place (`updateFirst`).
* Python numbers used for scores are modelled as exact rationals `ℚ`;
  integer fields are `Int`/`Nat` as appropriate.
* `HTTPException`s raised by the handlers become the categorized errors
  `notEnrolled`, `notFound`, `locked`, `validation`; the uncaught Python
  exceptions reachable in `submit_quiz` (list `IndexError` on a malformed
  stored correct-answer index, `ZeroDivisionError` on an empty question
  list) become the uncategorized constructors `indexError`, `zeroDivision`.
* Cosmetic static-content fields of `Module` (title, description, topics,
  script, ...) and the generated `id`/`created_at` of `ModuleProgress` play
  no role in any claim and are omitted; all fields read or written by the
  four operations are kept.
* Mutating handlers return the resulting store next to their result, so a
  write that happens before an error (the lazy insert in
  `get_module_detail`) is visible; read-only handlers return the store
  unchanged.
-/

namespace Backend

/-- One multiple-choice quiz question, as stored inside a module's
assessment (`QuizQuestion` in `server.py`). -/
structure QuizQuestion where
  question : String
  options : List String
  correct_answer : Int
  explanation : String
deriving Repr, DecidableEq

/-- A module's embedded assessment (`ModuleAssessment` in `server.py`). -/
structure ModuleAssessment where
  quiz_questions : List QuizQuestion
  passing_score : ℚ
deriving Repr, DecidableEq

/-- A course module (`Module` in `server.py`), restricted to the fields the
progression engine reads. -/
structure Module where
  id : String
  course_id : String
  module_number : Int
  assessment : ModuleAssessment
deriving Repr, DecidableEq

/-- Per-learner per-module progress (`ModuleProgress` in `server.py`).
Field defaults mirror the pydantic model; timestamps are abstract `Nat`
instants. -/
structure ModuleProgress where
  user_id : String
  course_id : String
  module_id : String
  is_unlocked : Bool := false
  is_completed : Bool := false
  quiz_attempts : Nat := 0
  best_score : ℚ := 0
  last_attempt_at : Option Nat := none
  completed_at : Option Nat := none
deriving Repr, DecidableEq

/-- An enrollment record, read only through its paid/unpaid status. -/
structure Enrollment where
  user_id : String
  course_id : String
  payment_status : String
deriving Repr, DecidableEq

/-- The persistence store: the three collections the engine touches. -/
structure DB where
  enrollments : List Enrollment
  modules : List Module
  module_progress : List ModuleProgress
deriving Repr, DecidableEq

/-- Errors surfaced by the four handlers. The first four are the
categorized `HTTPException`s; `indexError` and `zeroDivision` model the
uncaught Python exceptions reachable inside `submit_quiz`. -/
inductive ApiError where
  | notEnrolled
  | notFound
  | locked
  | validation
  | indexError
  | zeroDivision
deriving Repr, DecidableEq

/-- Python list indexing `l[i]`: negative indices count from the end, and
an index out of range raises (modelled as `none`). -/
def pyGet {α : Type} (l : List α) (i : Int) : Option α :=
  let j : Int := if i < 0 then i + l.length else i
  if 0 ≤ j then l.get? j.toNat else none

/-- `db.enrollments.find_one {user_id, course_id, payment_status: "paid"}`. -/
def findEnrollment (db : DB) (user course : String) : Option Enrollment :=
  db.enrollments.find? fun e =>
    e.user_id == user && e.course_id == course && e.payment_status == "paid"

/-- `db.modules.find_one {id: module_id, course_id}`. -/
def findModule (db : DB) (course module_id : String) : Option Module :=
  db.modules.find? fun m => m.id == module_id && m.course_id == course

/-- `db.modules.find_one {course_id, module_number: n}`. -/
def findModuleByNumber (db : DB) (course : String) (n : Int) : Option Module :=
  db.modules.find? fun m => m.course_id == course && m.module_number == n

/-- `db.module_progress.find_one {user_id, module_id}`. -/
def findProgress (db : DB) (user module_id : String) : Option ModuleProgress :=
  db.module_progress.find? fun p => p.user_id == user && p.module_id == module_id

/-- `db.module_progress.find_one {user_id, module_id, is_completed: true}`. -/
def findCompletedProgress (db : DB) (user module_id : String) :
    Option ModuleProgress :=
  db.module_progress.find? fun p =>
    p.user_id == user && p.module_id == module_id && p.is_completed

/-- Mongo `update_one`: apply `f` to the first record satisfying `p`,
leaving everything else in place. -/
def updateFirst {α : Type} (p : α → Bool) (f : α → α) : List α → List α
  | [] => []
  | x :: xs => if p x then f x :: xs else x :: updateFirst p f xs

/-- The unlock-eligibility block of `get_module_detail`, run when no
progress record exists yet: module 1 is unlocked; otherwise the previous
module (by number, same course) is looked up and the learner must hold a
completed progress record for it; a missing previous module means locked. -/
def detailUnlock (db : DB) (user course : String) (m : Module) : Bool :=
  if m.module_number == 1 then true
  else
    match findModuleByNumber db course (m.module_number - 1) with
    | some prev => (findCompletedProgress db user prev.id).isSome
    | none => false

/-- Operation `get_module_detail`: lazily computes, persists and gates the
progress record for (learner, module). Returns the handler outcome and the
resulting store (the lazy insert survives even when the outcome is the
Locked error, exactly as in the source). -/
def get_module_detail (db : DB) (user course module_id : String) :
    Except ApiError (Module × ModuleProgress) × DB :=
  match findEnrollment db user course with
  | none => (.error .notEnrolled, db)
  | some _ =>
    match findModule db course module_id with
    | none => (.error .notFound, db)
    | some m =>
      match findProgress db user module_id with
      | some progress =>
        if progress.is_unlocked then (.ok (m, progress), db)
        else (.error .locked, db)
      | none =>
        let progress : ModuleProgress :=
          { user_id := user, course_id := course, module_id := module_id,
            is_unlocked := detailUnlock db user course m }
        let db' : DB :=
          { db with module_progress := db.module_progress ++ [progress] }
        if progress.is_unlocked then (.ok (m, progress), db')
        else (.error .locked, db')

/-- A quiz question as returned to the learner, with the correct-answer
index and explanation stripped. -/
structure QuizQuestionView where
  question : String
  options : List String
deriving Repr, DecidableEq

/-- The payload of the quiz-fetch operation. -/
structure QuizView where
  module_id : String
  questions : List QuizQuestionView
  passing_score : ℚ
  attempts : Nat
  best_score : ℚ
deriving Repr, DecidableEq

/-- Operation `get_module_quiz`: strict existence check of an unlocked
progress record; performs no writes, so the store comes back unchanged. -/
def get_module_quiz (db : DB) (user course module_id : String) :
    Except ApiError QuizView × DB :=
  match findEnrollment db user course with
  | none => (.error .notEnrolled, db)
  | some _ =>
    match findModule db course module_id with
    | none => (.error .notFound, db)
    | some m =>
      match findProgress db user module_id with
      | none => (.error .locked, db)
      | some progress =>
        if progress.is_unlocked then
          (.ok { module_id := module_id,
                 questions := m.assessment.quiz_questions.map fun q =>
                   { question := q.question, options := q.options },
                 passing_score := m.assessment.passing_score,
                 attempts := progress.quiz_attempts,
                 best_score := progress.best_score }, db)
        else (.error .locked, db)

/-- One row of the per-question review returned by `submit_quiz`. -/
structure ReviewItem where
  question_number : Nat
  question : String
  user_answer : String
  correct_answer : String
  is_correct : Bool
  explanation : String
deriving Repr, DecidableEq

/-- The learner's chosen option text: the guarded expression
`options[a] if 0 <= a < len(options) else "No answer"`. -/
def renderUserAnswer (q : QuizQuestion) (a : Int) : String :=
  if 0 ≤ a ∧ a < (q.options.length : Int) then q.options.getD a.toNat "No answer"
  else "No answer"

/-- Grade one question and build its review row. The unguarded lookup
`options[correct_answer]` raises on a malformed stored index (`pyGet`
returning `none`), modelled as `indexError`. -/
def gradeQuestion (i : Nat) (a : Int) (q : QuizQuestion) :
    Except ApiError ReviewItem :=
  match pyGet q.options q.correct_answer with
  | none => .error .indexError
  | some correct_text =>
    .ok { question_number := i + 1,
          question := q.question,
          user_answer := renderUserAnswer q a,
          correct_answer := correct_text,
          is_correct := a == q.correct_answer,
          explanation := q.explanation }

/-- The grading loop over `zip(answers, questions)`: returns the number of
correct answers and the review rows, or the first uncaught error. -/
def gradeLoop : Nat → List (Int × QuizQuestion) → Except ApiError (Nat × List ReviewItem)
  | _, [] => .ok (0, [])
  | i, (a, q) :: rest =>
    match gradeQuestion i a q with
    | .error e => .error e
    | .ok item =>
      match gradeLoop (i + 1) rest with
      | .error e => .error e
      | .ok (c, items) =>
        .ok ((if item.is_correct then 1 else 0) + c, item :: items)

/-- The result payload of `submit_quiz` (`QuizResult` in `server.py`). -/
structure QuizResult where
  score : ℚ
  total_questions : Nat
  correct_answers : Nat
  passed : Bool
  questions_review : List ReviewItem
deriving Repr, DecidableEq

/-- The cascade-unlock block of `submit_quiz`: look up the module numbered
`module_number + 1` in the same course; if the learner already has a
progress record for it set `is_unlocked`, otherwise insert a fresh record
with `is_unlocked = true`. -/
def cascadeUnlock (db : DB) (user course : String) (m : Module) : DB :=
  match findModuleByNumber db course (m.module_number + 1) with
  | none => db
  | some nm =>
    match findProgress db user nm.id with
    | some _ =>
      let upd := updateFirst (fun p => p.user_id == user && p.module_id == nm.id)
        (fun p => { p with is_unlocked := true }) db.module_progress
      { db with module_progress := upd }
    | none =>
      { db with module_progress :=
          db.module_progress ++
            [{ user_id := user, course_id := course, module_id := nm.id,
               is_unlocked := true }] }

/-- The `$set update_data` applied to the submitting learner's progress
record. All field values are computed from `progress`, the record read at
the start of the handler, and then written onto the first record matching
(user, module) — exactly as the source builds `update_data` from the read
document before `update_one`. -/
def applyUpdate (progress : ModuleProgress) (score : ℚ) (passed : Bool)
    (now : Nat) (p : ModuleProgress) : ModuleProgress :=
  let p1 := { p with quiz_attempts := progress.quiz_attempts + 1,
                     last_attempt_at := some now }
  let p2 := if progress.best_score < score then { p1 with best_score := score } else p1
  if passed && !progress.is_completed then
    { p2 with is_completed := true, completed_at := some now }
  else p2

/-- The write phase of `submit_quiz`: the cascade-unlock runs first (only
on a fresh pass), then the `update_one` on the submitting record. -/
def applyWrites (db : DB) (user course module_id : String) (m : Module)
    (progress : ModuleProgress) (score : ℚ) (passed : Bool) (now : Nat) : DB :=
  let db1 := if passed && !progress.is_completed then cascadeUnlock db user course m else db
  let upd := updateFirst (fun p => p.user_id == user && p.module_id == module_id)
    (applyUpdate progress score passed now) db1.module_progress
  { db1 with module_progress := upd }

/-- Operation `submit_quiz`: grade the submission against the module's
questions and apply the progress updates. -/
def submit_quiz (db : DB) (user course module_id : String) (answers : List Int)
    (now : Nat) : Except ApiError QuizResult × DB :=
  match findEnrollment db user course with
  | none => (.error .notEnrolled, db)
  | some _ =>
    match findModule db course module_id with
    | none => (.error .notFound, db)
    | some m =>
      match findProgress db user module_id with
      | none => (.error .locked, db)
      | some progress =>
        if progress.is_unlocked then
          if answers.length = m.assessment.quiz_questions.length then
            match gradeLoop 0 (answers.zip m.assessment.quiz_questions) with
            | .error e => (.error e, db)
            | .ok (correct_count, review) =>
              if m.assessment.quiz_questions.length = 0 then
                (.error .zeroDivision, db)
              else
                (.ok { score := (correct_count : ℚ) / (m.assessment.quiz_questions.length : ℚ),
                       total_questions := m.assessment.quiz_questions.length,
                       correct_answers := correct_count,
                       passed := decide (m.assessment.passing_score ≤
                         (correct_count : ℚ) / (m.assessment.quiz_questions.length : ℚ)),
                       questions_review := review },
                 applyWrites db user course module_id m progress
                   ((correct_count : ℚ) / (m.assessment.quiz_questions.length : ℚ))
                   (decide (m.assessment.passing_score ≤
                     (correct_count : ℚ) / (m.assessment.quiz_questions.length : ℚ)))
                   now)
          else (.error .validation, db)
        else (.error .locked, db)

/-- The aggregate-progress payload (`UserProgressSummary` in `server.py`). -/
structure UserProgressSummary where
  course_id : String
  total_modules : Nat
  completed_modules : Nat
  current_module : Int
  overall_progress : ℚ
deriving Repr, DecidableEq

/-- Operation `get_course_progress`: counts, current-module lookup (the
source's `find_one` with no sort, i.e. first match in natural order, with
fallback 1 when the referenced module document is missing), and the guarded
percentage. Performs no writes. -/
def get_course_progress (db : DB) (user course : String) :
    Except ApiError UserProgressSummary :=
  match findEnrollment db user course with
  | none => .error .notEnrolled
  | some _ =>
    let total_modules := db.modules.countP fun m => m.course_id == course
    let completed_count := db.module_progress.countP fun p =>
      p.user_id == user && p.course_id == course && p.is_completed
    let current_progress := db.module_progress.find? fun p =>
      p.user_id == user && p.course_id == course && p.is_unlocked && !p.is_completed
    let current_module : Int :=
      match current_progress with
      | some cp =>
        match db.modules.find? (fun m => m.id == cp.module_id) with
        | some cm => cm.module_number
        | none => 1
      | none =>
        if completed_count < total_modules then (completed_count : Int) + 1
        else (total_modules : Int)
    let overall_progress : ℚ :=
      if 0 < total_modules then (completed_count : ℚ) / (total_modules : ℚ) * 100 else 0
    .ok { course_id := course, total_modules := total_modules,
          completed_modules := completed_count,
          current_module := current_module,
          overall_progress := overall_progress }

/-! ### Generic lemmas about the store primitives -/

theorem updateFirst_length {α : Type} (p : α → Bool) (f : α → α) (l : List α) :
    (updateFirst p f l).length = l.length := by
  induction l with
  | nil => rfl
  | cons a tl ih => cases h : p a <;> simp [updateFirst, h, ih]

/-- Every element of `updateFirst p f l` is, position by position, either the
original element or `f` applied to an original element satisfying `p`. -/
theorem updateFirst_get? {α : Type} (p : α → Bool) (f : α → α) (l : List α)
    (i : Nat) (x y : α) (hx : l.get? i = some x)
    (hy : (updateFirst p f l).get? i = some y) :
    y = x ∨ (p x = true ∧ y = f x) := by
  induction l generalizing i with
  | nil => simp at hx
  | cons a tl ih =>
    cases h : p a with
    | true =>
      simp only [updateFirst, h, if_pos] at hy
      cases i with
      | zero =>
        simp only [List.get?] at hx hy
        exact Or.inr ⟨by rw [← Option.some_inj.mp hx]; exact h,
          by rw [← Option.some_inj.mp hx, ← Option.some_inj.mp hy]⟩
      | succ n =>
        simp only [List.get?] at hx hy
        exact Or.inl (by rw [hx] at hy; exact (Option.some_inj.mp hy).symm)
    | false =>
      simp only [updateFirst, h, Bool.false_eq_true, if_neg, not_false_iff] at hy
      cases i with
      | zero =>
        simp only [List.get?] at hx hy
        exact Or.inl (by rw [← Option.some_inj.mp hx, ← Option.some_inj.mp hy])
      | succ n =>
        simp only [List.get?] at hx hy
        exact ih n hx hy

/-- `update_one` rewrites exactly the record `find_one` returns, provided the
update does not change whether the record matches. -/
theorem find?_updateFirst {α : Type} (p : α → Bool) (g : α → α) (l : List α)
    (x : α) (hfind : l.find? p = some x) (hg : ∀ y, p (g y) = p y) :
    (updateFirst p g l).find? p = some (g x) := by
  induction l with
  | nil => simp at hfind
  | cons a tl ih =>
    cases h : p a with
    | true =>
      rw [List.find?_cons_of_pos _ h] at hfind
      simp only [updateFirst, h, if_pos]
      rw [List.find?_cons_of_pos _ (by rw [hg]; exact h)]
      rw [Option.some_inj.mp hfind]
    | false =>
      rw [List.find?_cons_of_neg _ (by simp [h])] at hfind
      simp only [updateFirst, h, Bool.false_eq_true, if_neg, not_false_iff]
      rw [List.find?_cons_of_neg _ (by simp [h])]
      exact ih hfind

/-- An update targeting records matching `p` is invisible to a `find_one`
whose filter `p'` rejects every `p`-record, provided the update preserves
`p'`-membership. -/
theorem find?_updateFirst_disjoint {α : Type} (p p' : α → Bool) (f : α → α)
    (l : List α) (hpres : ∀ y, p' (f y) = p' y)
    (hdisj : ∀ y, p y = true → p' y = false) :
    (updateFirst p f l).find? p' = l.find? p' := by
  induction l with
  | nil => rfl
  | cons a tl ih =>
    cases h : p a with
    | true =>
      simp only [updateFirst, h, if_pos]
      have h' : p' a = false := hdisj a h
      rw [List.find?_cons_of_neg _ (by simp [hpres, h']),
        List.find?_cons_of_neg _ (by simp [h'])]
    | false =>
      simp only [updateFirst, h, Bool.false_eq_true, if_neg, not_false_iff]
      cases h' : p' a with
      | true => rw [List.find?_cons_of_pos _ h', List.find?_cons_of_pos _ h']
      | false =>
        rw [List.find?_cons_of_neg _ (by simp [h']),
          List.find?_cons_of_neg _ (by simp [h'])]
        exact ih

/-- When at most one record matches the filter, any matching record is the
one `find_one` returns. -/
theorem countP_le_one_find? {α : Type} (p : α → Bool) (l : List α)
    (hcount : l.countP p ≤ 1) (i : Nat) (x : α)
    (hx : l.get? i = some x) (hpx : p x = true) : l.find? p = some x := by
  induction l generalizing i with
  | nil => simp at hx
  | cons a tl ih =>
    cases i with
    | zero =>
      simp only [List.get?] at hx
      rw [← Option.some_inj.mp hx] at hpx ⊢
      rw [List.find?_cons_of_pos _ hpx]
    | succ n =>
      simp only [List.get?] at hx
      cases h : p a with
      | true =>
        exfalso
        have hmem : x ∈ tl := List.get?_mem hx
        have h1 : 0 < tl.countP p := List.countP_pos_iff.mpr ⟨x, hmem, hpx⟩
        rw [List.countP_cons_of_pos _ _ h] at hcount
        omega
      | false =>
        rw [List.find?_cons_of_neg _ (by simp [h])]
        rw [List.countP_cons_of_neg _ _ (by simp [h])] at hcount
        exact ih hcount n hx

/-- `find_one` with a filter equals the head of the filtered collection. -/
theorem find?_eq_head?_filter {α : Type} (p : α → Bool) (l : List α) :
    l.find? p = (l.filter p).head? := by
  induction l with
  | nil => rfl
  | cons a tl ih =>
    cases h : p a with
    | true => rw [List.find?_cons_of_pos _ h, List.filter_cons_of_pos h]; rfl
    | false =>
      rw [List.find?_cons_of_neg _ (by simp [h]), List.filter_cons_of_neg (by simp [h])]
      exact ih

/-! ### Structural lemmas about the write phase of `submit_quiz` -/

/-- Position by position, the cascade-unlock step preserves every field of
every pre-existing progress record except possibly `is_unlocked`, which it
can only set to `true`, and only on a record of the submitting learner
keyed to the next module. -/
theorem cascade_get? (db : DB) (user course : String) (m : Module) (i : Nat)
    (x : ModuleProgress) (hx : db.module_progress.get? i = some x) :
    ∃ y, (cascadeUnlock db user course m).module_progress.get? i = some y ∧
      y.user_id = x.user_id ∧ y.course_id = x.course_id ∧
      y.module_id = x.module_id ∧ y.best_score = x.best_score ∧
      y.is_completed = x.is_completed ∧ y.quiz_attempts = x.quiz_attempts ∧
      y.completed_at = x.completed_at ∧ y.last_attempt_at = x.last_attempt_at ∧
      (y.is_unlocked = x.is_unlocked ∨
        (y.is_unlocked = true ∧ x.user_id = user ∧
          ∃ nm, findModuleByNumber db course (m.module_number + 1) = some nm ∧
            x.module_id = nm.id)) := by
  have hi : i < db.module_progress.length := by
    by_contra hc
    push_neg at hc
    rw [List.get?_eq_none.mpr hc] at hx
    exact Option.noConfusion hx
  unfold cascadeUnlock
  split
  next => exact ⟨x, hx, rfl, rfl, rfl, rfl, rfl, rfl, rfl, rfl, Or.inl rfl⟩
  next nm hnm =>
    split
    next _ _ =>
      cases hy : (updateFirst (fun p => p.user_id == user && p.module_id == nm.id)
          (fun p => { p with is_unlocked := true }) db.module_progress).get? i with
      | none =>
        exfalso
        have := List.get?_eq_none.mp hy
        rw [updateFirst_length] at this
        omega
      | some y =>
        rcases updateFirst_get? _ _ _ _ _ _ hx hy with hcase | ⟨hpx, hcase⟩
        · subst hcase
          exact ⟨_, rfl, rfl, rfl, rfl, rfl, rfl, rfl, rfl, rfl, Or.inl rfl⟩
        · subst hcase
          simp only [Bool.and_eq_true, beq_iff_eq] at hpx
          exact ⟨_, rfl, rfl, rfl, rfl, rfl, rfl, rfl, rfl, rfl,
            Or.inr ⟨rfl, hpx.1, nm, hnm, hpx.2⟩⟩
    next _ =>
      exact ⟨x, by rw [List.get?_append hi]; exact hx, rfl, rfl, rfl, rfl, rfl,
        rfl, rfl, rfl, Or.inl rfl⟩

/-- The store returned by `submit_quiz` is either untouched (error paths)
or the result of `applyWrites` for the module and progress record the
handler read. -/
theorem submit_db_cases (db : DB) (user course module_id : String)
    (answers : List Int) (now : Nat) :
    (submit_quiz db user course module_id answers now).2 = db ∨
    ∃ m progress score passed,
      findModule db course module_id = some m ∧
      findProgress db user module_id = some progress ∧
      (submit_quiz db user course module_id answers now).2 =
        applyWrites db user course module_id m progress score passed now := by
  unfold submit_quiz
  split
  next => exact Or.inl rfl
  next =>
    split
    next => exact Or.inl rfl
    next m hm =>
      split
      next => exact Or.inl rfl
      next progress hp =>
        split
        next =>
          split
          next =>
            split
            next => exact Or.inl rfl
            next cc review hgrade =>
              split
              next => exact Or.inl rfl
              next => exact Or.inr ⟨m, progress, _, _, hm, hp, rfl⟩
          next => exact Or.inl rfl
        next => exact Or.inl rfl

/-- Inversion of a successful `submit_quiz`: every guard passed, and the
components of the result and the final store are fully determined. -/
theorem submit_ok_inv (db : DB) (user course module_id : String)
    (answers : List Int) (now : Nat) (r : QuizResult) (db' : DB)
    (h : submit_quiz db user course module_id answers now = (.ok r, db')) :
    ∃ m progress,
      findModule db course module_id = some m ∧
      findProgress db user module_id = some progress ∧
      progress.is_unlocked = true ∧
      answers.length = m.assessment.quiz_questions.length ∧
      0 < m.assessment.quiz_questions.length ∧
      gradeLoop 0 (answers.zip m.assessment.quiz_questions) =
        .ok (r.correct_answers, r.questions_review) ∧
      r.total_questions = m.assessment.quiz_questions.length ∧
      r.score = (r.correct_answers : ℚ) / (m.assessment.quiz_questions.length : ℚ) ∧
      r.passed = decide (m.assessment.passing_score ≤ r.score) ∧
      db' = applyWrites db user course module_id m progress r.score r.passed now := by
  unfold submit_quiz at h
  split at h <;> try simp at h
  split at h <;> try simp at h
  rename_i m hm
  split at h <;> try simp at h
  rename_i progress hp
  split at h <;> try simp at h
  rename_i hunl
  split at h <;> try simp at h
  rename_i hlen
  split at h <;> try simp at h
  rename_i cc review hgrade
  split at h <;> try simp at h
  rename_i hzero
  obtain ⟨h1, h2⟩ := h
  subst h1
  exact ⟨m, progress, hm, hp, hunl, hlen,
    List.length_pos.mpr hzero, hgrade, rfl, rfl, rfl, h2.symm⟩

/-! ### Concrete fixtures

A three-module course `"c"` for learner `"u"`: module 1 carries a
five-question quiz, modules 2 and 3 a one-question quiz; every question has
four options with option 0 correct and the default 0.80 passing score. -/

/-- A sample question: four options, option 0 correct. -/
def q0 : QuizQuestion :=
  { question := "q", options := ["a", "b", "c", "d"], correct_answer := 0,
    explanation := "e" }

def asmt5 : ModuleAssessment :=
  { quiz_questions := [q0, q0, q0, q0, q0], passing_score := 0.8 }

def asmt1 : ModuleAssessment := { quiz_questions := [q0], passing_score := 0.8 }

def mod1 : Module :=
  { id := "m1", course_id := "c", module_number := 1, assessment := asmt5 }

def mod2 : Module :=
  { id := "m2", course_id := "c", module_number := 2, assessment := asmt1 }

def mod3 : Module :=
  { id := "m3", course_id := "c", module_number := 3, assessment := asmt1 }

def enr0 : Enrollment :=
  { user_id := "u", course_id := "c", payment_status := "paid" }

/-- Progress of learner `"u"` on module 1, unlocked and untouched. -/
def prog1 : ModuleProgress :=
  { user_id := "u", course_id := "c", module_id := "m1", is_unlocked := true }

/-- Store before any progress exists. -/
def dbFresh : DB :=
  { enrollments := [enr0], modules := [mod1, mod2, mod3], module_progress := [] }

/-- Store where module 1 has been visited (unlocked, no attempts). -/
def dbUnlocked1 : DB :=
  { enrollments := [enr0], modules := [mod1, mod2, mod3],
    module_progress := [prog1] }

/-- Progress of `"u"` on module 2, unlocked and untouched. -/
def prog2 : ModuleProgress :=
  { user_id := "u", course_id := "c", module_id := "m2", is_unlocked := true }

/-- Store where module 2 is unlocked and not yet attempted. -/
def dbUnlocked2 : DB :=
  { enrollments := [enr0], modules := [mod1, mod2, mod3],
    module_progress := [prog2] }

/-! ### Claim theorems -/

/-- C7: a quiz submission whose answer-list length differs from the
module's question count fails with the ValidationError and the store comes
back bit-for-bit unchanged: no attempt increment, no best-score update, no
completion, no cascade-unlock. -/
theorem submit_quiz_length_mismatch (db : DB) (user course module_id : String)
    (answers : List Int) (now : Nat) (m : Module) (progress : ModuleProgress)
    (he : (findEnrollment db user course).isSome = true)
    (hm : findModule db course module_id = some m)
    (hp : findProgress db user module_id = some progress)
    (hunl : progress.is_unlocked = true)
    (hlen : answers.length ≠ m.assessment.quiz_questions.length) :
    submit_quiz db user course module_id answers now = (.error .validation, db) := by
  obtain ⟨e, he⟩ := Option.isSome_iff_exists.mp he
  simp [submit_quiz, he, hm, hp, hunl, hlen]

/-- C7 witness: submitting two answers to the five-question module 1. -/
theorem submit_quiz_length_mismatch_witness :
    submit_quiz dbUnlocked1 "u" "c" "m1" [0, 0] 7 = (.error .validation, dbUnlocked1) :=
  submit_quiz_length_mismatch dbUnlocked1 "u" "c" "m1" [0, 0] 7 mod1 prog1
    (by decide) (by with_unfolding_all rfl) (by with_unfolding_all rfl)
    (by decide) (by decide)

/-- C9: the quiz-fetch operation never writes (the store it returns is the
one it was given, so it never creates a progress record), and whenever no
progress record exists for (learner, module) — e.g. on a module beyond #1
never opened through module detail — or the record has is_unlocked = false,
it fails closed with the Locked error. -/
theorem get_module_quiz_fails_closed (db : DB) (user course module_id : String) :
    (get_module_quiz db user course module_id).2 = db ∧
    (∀ e m, findEnrollment db user course = some e →
      findModule db course module_id = some m →
      (findProgress db user module_id = none ∨
        ∃ p, findProgress db user module_id = some p ∧ p.is_unlocked = false) →
      (get_module_quiz db user course module_id).1 = .error .locked) := by
  constructor
  · unfold get_module_quiz
    split
    · rfl
    · split
      · rfl
      · split
        · rfl
        · split <;> rfl
  · intro e m he hm hlock
    rcases hlock with h | ⟨p, hp, hu⟩
    · simp [get_module_quiz, he, hm, h]
    · simp [get_module_quiz, he, hm, hp, hu]

/-- C9 witness: fetching module 2's quiz before any detail fetch (no
progress record at all) fails closed as Locked. -/
theorem get_module_quiz_fails_closed_witness :
    (get_module_quiz dbFresh "u" "c" "m2").2 = dbFresh ∧
    (get_module_quiz dbFresh "u" "c" "m2").1 = .error .locked :=
  ⟨(get_module_quiz_fails_closed dbFresh "u" "c" "m2").1,
    (get_module_quiz_fails_closed dbFresh "u" "c" "m2").2 enr0 mod2
      (by decide) (by with_unfolding_all rfl) (Or.inl (by decide))⟩

/-- C10: on a module whose assessment has an empty question list, an empty
answer list passes the length validation and the handler then divides the
correct count by zero — the uncategorized ZeroDivisionError constructor —
rather than failing with a categorized error. -/
theorem submit_quiz_zero_questions_division (db : DB)
    (user course module_id : String) (now : Nat) (m : Module)
    (progress : ModuleProgress)
    (he : (findEnrollment db user course).isSome = true)
    (hm : findModule db course module_id = some m)
    (hq : m.assessment.quiz_questions = [])
    (hp : findProgress db user module_id = some progress)
    (hunl : progress.is_unlocked = true) :
    submit_quiz db user course module_id [] now = (.error .zeroDivision, db) := by
  obtain ⟨e, he⟩ := Option.isSome_iff_exists.mp he
  simp [submit_quiz, he, hm, hp, hunl, hq, gradeLoop]

/-- A module with an empty assessment, for the division-by-zero claim. -/
def mod0 : Module :=
  { id := "m0", course_id := "c0", module_number := 1,
    assessment := { quiz_questions := [], passing_score := 0.8 } }

/-- Store around `mod0`: enrolled learner, module unlocked. -/
def dbZero : DB :=
  { enrollments := [{ user_id := "u", course_id := "c0", payment_status := "paid" }],
    modules := [mod0],
    module_progress := [{ user_id := "u", course_id := "c0", module_id := "m0",
                          is_unlocked := true }] }

/-- C10 witness: the empty submission on the zero-question module hits the
division by zero. -/
theorem submit_quiz_zero_questions_division_witness :
    submit_quiz dbZero "u" "c0" "m0" [] 7 = (.error .zeroDivision, dbZero) :=
  submit_quiz_zero_questions_division dbZero "u" "c0" "m0" 7 mod0 _
    (by decide) (by with_unfolding_all rfl) (by with_unfolding_all rfl)
    (by with_unfolding_all rfl) (by decide)

/-- C2: whenever `submit_quiz` returns a result, the score is exactly
`correct_answers / total_questions` as a rational with no rounding, and
`passed` holds iff the score is ≥ the assessment's passing threshold
(inclusive). Concretely, on the five-question module a submission with
exactly 4 correct scores 0.80 and passes the default 0.80 threshold, and
one with exactly 1 correct scores 0.20 and fails. -/
theorem submit_quiz_score_exact :
    (∀ db user course module_id answers now m r db',
      findModule db course module_id = some m →
      submit_quiz db user course module_id answers now = (.ok r, db') →
      r.total_questions = m.assessment.quiz_questions.length ∧
      r.score = (r.correct_answers : ℚ) / (r.total_questions : ℚ) ∧
      (r.passed = true ↔ m.assessment.passing_score ≤ r.score)) ∧
    ((submit_quiz dbUnlocked1 "u" "c" "m1" [0, 0, 0, 0, 1] 7).1.map QuizResult.score
        = .ok 0.8 ∧
     (submit_quiz dbUnlocked1 "u" "c" "m1" [0, 0, 0, 0, 1] 7).1.map QuizResult.passed
        = .ok true) ∧
    ((submit_quiz dbUnlocked1 "u" "c" "m1" [0, 1, 1, 1, 1] 7).1.map QuizResult.score
        = .ok 0.2 ∧
     (submit_quiz dbUnlocked1 "u" "c" "m1" [0, 1, 1, 1, 1] 7).1.map QuizResult.passed
        = .ok false) := by
  refine ⟨?_, ⟨?_, ?_⟩, ⟨?_, ?_⟩⟩
  · intro db user course module_id answers now m r db' hm hs
    obtain ⟨m', progress, hm', hp, hunl, hlen, hpos, hgrade, htot, hscore, hpassed, hdb⟩ :=
      submit_ok_inv db user course module_id answers now r db' hs
    rw [hm] at hm'
    obtain rfl : m' = m := (Option.some_inj.mp hm').symm
    refine ⟨htot, by rw [hscore, htot], ?_⟩
    rw [hpassed]
    simp
  · with_unfolding_all rfl
  · with_unfolding_all rfl
  · with_unfolding_all rfl
  · with_unfolding_all rfl

/-- The progress record on module 2 after passing its one-question quiz at
time 7. -/
def prog2done : ModuleProgress :=
  { user_id := "u", course_id := "c", module_id := "m2", is_unlocked := true,
    is_completed := true, quiz_attempts := 1, best_score := 1,
    last_attempt_at := some 7, completed_at := some 7 }

/-- The cascade-created progress record for module 3. -/
def prog3new : ModuleProgress :=
  { user_id := "u", course_id := "c", module_id := "m3", is_unlocked := true }

/-- The quiz result of the passing one-answer submission on module 2. -/
def rAfter2 : QuizResult :=
  { score := 1, total_questions := 1, correct_answers := 1, passed := true,
    questions_review := [{ question_number := 1, question := "q",
                           user_answer := "a", correct_answer := "a",
                           is_correct := true, explanation := "e" }] }

/-- The store after that submission: module 2 completed, module 3 unlocked. -/
def dbAfter2 : DB :=
  { enrollments := [enr0], modules := [mod1, mod2, mod3],
    module_progress := [prog2done, prog3new] }

/-- C2 witness: the scoring facts instantiated on a concrete passing
submission on module 2. -/
theorem submit_quiz_score_exact_witness :
    findModule dbUnlocked2 "c" "m2" = some mod2 ∧
    (rAfter2.total_questions = mod2.assessment.quiz_questions.length ∧
     rAfter2.score = (rAfter2.correct_answers : ℚ) / (rAfter2.total_questions : ℚ) ∧
     (rAfter2.passed = true ↔ mod2.assessment.passing_score ≤ rAfter2.score)) :=
  ⟨by with_unfolding_all rfl,
   submit_quiz_score_exact.1 dbUnlocked2 "u" "c" "m2" [0] 7 mod2 rAfter2 dbAfter2
     (by with_unfolding_all rfl) (by with_unfolding_all rfl)⟩

/-! ### C4: aggregate progress -/

/-- A module numbered 2 in course `"c4"`. -/
def modA : Module :=
  { id := "mA", course_id := "c4", module_number := 2, assessment := asmt1 }

/-- A module numbered 5 in course `"c4"`. -/
def modB : Module :=
  { id := "mB", course_id := "c4", module_number := 5, assessment := asmt1 }

/-- Unlocked, not completed progress on the number-2 module. -/
def pA : ModuleProgress :=
  { user_id := "u4", course_id := "c4", module_id := "mA", is_unlocked := true }

/-- Unlocked, not completed progress on the number-5 module. -/
def pB : ModuleProgress :=
  { user_id := "u4", course_id := "c4", module_id := "mB", is_unlocked := true }

/-- A store in which the record for the number-5 module was inserted before
the record for the number-2 module. -/
def dbC4 : DB :=
  { enrollments := [{ user_id := "u4", course_id := "c4", payment_status := "paid" }],
    modules := [modA, modB], module_progress := [pB, pA] }

/-- C4 counterexample: with two unlocked-and-not-completed progress records
whose insertion order disagrees with `module_number` order, the operation
reports the module of the insertion-order-first record (number 5), not the
smallest unlocked-uncompleted `module_number` (2): the handler's
`find_one` carries no sort, so "first in module_number order" is false of
the code. -/
theorem current_module_order_counterexample :
    (get_course_progress dbC4 "u4" "c4").map UserProgressSummary.current_module
      = .ok 5 ∧
    dbC4.module_progress.get? 1 = some pA ∧
    pA.user_id = "u4" ∧ pA.course_id = "c4" ∧
    pA.is_unlocked = true ∧ pA.is_completed = false ∧
    findModule dbC4 "c4" pA.module_id = some modA ∧ modA.module_number = 2 ∧
    (2 : Int) < 5 :=
  ⟨by with_unfolding_all rfl, by with_unfolding_all rfl, rfl, rfl, rfl, rfl,
    by with_unfolding_all rfl, rfl, by decide⟩

/-- Modelled from the spec (C4 as amended): the current module is the
`module_number` of the module referenced by the first progress record *in
store (insertion) order* that is unlocked and not completed — defaulting to
1 if that module document is missing — and otherwise `completed + 1` while
any module remains, clamping at `total`. -/
def spec_current_module (db : DB) (user course : String) : Int :=
  match (db.module_progress.filter fun p =>
      p.user_id == user && p.course_id == course &&
        p.is_unlocked && !p.is_completed).head? with
  | some cp =>
    match (db.modules.filter fun m => m.id == cp.module_id).head? with
    | some cm => cm.module_number
    | none => 1
  | none =>
    let total := db.modules.countP fun m => m.course_id == course
    let completed := db.module_progress.countP fun p =>
      p.user_id == user && p.course_id == course && p.is_completed
    if completed < total then (completed : Int) + 1 else (total : Int)

/-- Modelled from the spec: overall progress is `completed / total * 100`,
and 0 (not an error) for a course with no modules. -/
def spec_overall_progress (db : DB) (user course : String) : ℚ :=
  let total := db.modules.countP fun m => m.course_id == course
  let completed := db.module_progress.countP fun p =>
    p.user_id == user && p.course_id == course && p.is_completed
  if total = 0 then 0 else (completed : ℚ) / (total : ℚ) * 100

/-- C4 (amended): for an enrolled learner the aggregate-progress operation
succeeds and returns exactly the spec-side counts, current module (first
unlocked-not-completed record in store order, with the completed+1 /
clamp-at-total fallback) and percentage, which is 0 — never a division
error — for a course with 0 modules. -/
theorem get_course_progress_spec (db : DB) (user course : String)
    (he : (findEnrollment db user course).isSome = true) :
    get_course_progress db user course =
      .ok { course_id := course,
            total_modules := db.modules.countP fun m => m.course_id == course,
            completed_modules := db.module_progress.countP fun p =>
              p.user_id == user && p.course_id == course && p.is_completed,
            current_module := spec_current_module db user course,
            overall_progress := spec_overall_progress db user course } ∧
    ((db.modules.countP fun m => m.course_id == course) = 0 →
      spec_overall_progress db user course = 0) := by
  obtain ⟨e, he⟩ := Option.isSome_iff_exists.mp he
  constructor
  · simp only [get_course_progress, spec_current_module, spec_overall_progress,
      he, ← find?_eq_head?_filter, Except.ok.injEq, UserProgressSummary.mk.injEq]
    refine ⟨trivial, trivial, trivial, trivial, ?_⟩
    rcases Nat.eq_zero_or_pos (db.modules.countP fun m => m.course_id == course)
      with h | h
    · simp [h]
    · simp [h, Nat.pos_iff_ne_zero.mp h]
  · intro h
    simp [spec_overall_progress, h]

/-- C4 witness: the amended description instantiated on the two-module
store. -/
theorem get_course_progress_spec_witness :
    (findEnrollment dbC4 "u4" "c4").isSome = true ∧
    get_course_progress dbC4 "u4" "c4" =
      .ok { course_id := "c4",
            total_modules := dbC4.modules.countP fun m => m.course_id == "c4",
            completed_modules := dbC4.module_progress.countP fun p =>
              p.user_id == "u4" && p.course_id == "c4" && p.is_completed,
            current_module := spec_current_module dbC4 "u4" "c4",
            overall_progress := spec_overall_progress dbC4 "u4" "c4" } :=
  ⟨by decide, (get_course_progress_spec dbC4 "u4" "c4" (by decide)).1⟩

/-! ### C1: module detail — lazy creation with the unlock rule -/

/-- The spec's unlock condition for a module numbered `n > 1`: some module
numbered `n - 1` in the same course has a progress record for this learner
with `is_completed = true`. -/
def prevCompleted (db : DB) (user course : String) (n : Int) : Prop :=
  ∃ pm ∈ db.modules, pm.course_id = course ∧ pm.module_number = n - 1 ∧
    ∃ p ∈ db.module_progress, p.user_id = user ∧ p.module_id = pm.id ∧
      p.is_completed = true

/-- C1: when no progress record exists for (learner, module), module
detail computes the unlock state — true exactly when the module is number
1 or some module numbered one less in the same course has a completed
progress record — persists a new record carrying it, and then either
returns the module with that record or fails with the Locked error and no
content. The module-number uniqueness hypothesis is the catalog's
"unique per course" guarantee. -/
theorem get_module_detail_creates_and_gates (db : DB)
    (user course module_id : String) (m : Module) (e : Enrollment)
    (he : findEnrollment db user course = some e)
    (hm : findModule db course module_id = some m)
    (hp : findProgress db user module_id = none)
    (huniq : ∀ m1 ∈ db.modules, ∀ m2 ∈ db.modules,
      m1.course_id = m2.course_id → m1.module_number = m2.module_number →
      m1 = m2) :
    ∃ p', (get_module_detail db user course module_id).2.module_progress =
        db.module_progress ++ [p'] ∧
      p'.user_id = user ∧ p'.course_id = course ∧ p'.module_id = module_id ∧
      p'.is_completed = false ∧ p'.quiz_attempts = 0 ∧ p'.best_score = 0 ∧
      (p'.is_unlocked = true ↔
        (m.module_number = 1 ∨ prevCompleted db user course m.module_number)) ∧
      (p'.is_unlocked = true →
        (get_module_detail db user course module_id).1 = .ok (m, p')) ∧
      (p'.is_unlocked = false →
        (get_module_detail db user course module_id).1 = .error .locked) := by
  have hiff : detailUnlock db user course m = true ↔
      (m.module_number = 1 ∨ prevCompleted db user course m.module_number) := by
    unfold detailUnlock
    by_cases h1 : m.module_number = 1
    · simp [h1]
    · rw [if_neg (by simp [h1])]
      cases hfind : findModuleByNumber db course (m.module_number - 1) with
      | none =>
        simp only [Bool.false_eq_true, false_iff]
        rintro (h | ⟨pm, hmem, hc, hn, -⟩)
        · exact h1 h
        · have hx : (findModuleByNumber db course (m.module_number - 1)).isSome :=
            List.find?_isSome.mpr ⟨pm, hmem, by simp [hc, hn]⟩
          rw [hfind] at hx
          simp at hx
      | some prev =>
        have hprevP := List.find?_some hfind
        have hprevMem := List.mem_of_find?_eq_some hfind
        simp only [Bool.and_eq_true, beq_iff_eq] at hprevP
        constructor
        · intro hsome
          obtain ⟨p, hpfind⟩ := Option.isSome_iff_exists.mp hsome
          have hpP := List.find?_some hpfind
          have hpMem := List.mem_of_find?_eq_some hpfind
          simp only [Bool.and_eq_true, beq_iff_eq] at hpP
          exact Or.inr ⟨prev, hprevMem, hprevP.1, hprevP.2, p, hpMem,
            hpP.1.1, hpP.1.2, hpP.2⟩
        · rintro (h | ⟨pm, hmem, hc, hn, p, hpmem, hpu, hpm, hpc⟩)
          · exact absurd h h1
          · have hpe : pm = prev :=
              huniq pm hmem prev hprevMem (hc.trans hprevP.1.symm)
                (hn.trans hprevP.2.symm)
            subst hpe
            exact List.find?_isSome.mpr ⟨p, hpmem, by simp [hpu, hpm, hpc]⟩
  refine ⟨{ user_id := user, course_id := course, module_id := module_id,
            is_unlocked := detailUnlock db user course m }, ?_⟩
  cases hval : detailUnlock db user course m with
  | true =>
    rw [hval] at hiff
    refine ⟨?_, rfl, rfl, rfl, rfl, rfl, rfl, by simpa using hiff,
      fun _ => ?_, ?_⟩
    · simp [get_module_detail, he, hm, hp, hval]
    · simp [get_module_detail, he, hm, hp, hval]
    · intro hf
      simp at hf
  | false =>
    rw [hval] at hiff
    refine ⟨?_, rfl, rfl, rfl, rfl, rfl, rfl, by simpa using hiff,
      ?_, fun _ => ?_⟩
    · simp [get_module_detail, he, hm, hp, hval]
    · intro ht
      simp at ht
    · simp [get_module_detail, he, hm, hp, hval]

/-- C1 witness: opening module 1 of the fresh store creates its unlocked
record, whose unlock state agrees with the rule (module number 1). -/
theorem get_module_detail_creates_and_gates_witness :
    findProgress dbFresh "u" "m1" = none ∧
    ∃ p', (get_module_detail dbFresh "u" "c" "m1").2.module_progress =
        dbFresh.module_progress ++ [p'] ∧
      p'.user_id = "u" ∧ p'.course_id = "c" ∧ p'.module_id = "m1" ∧
      p'.is_completed = false ∧ p'.quiz_attempts = 0 ∧ p'.best_score = 0 ∧
      (p'.is_unlocked = true ↔
        (mod1.module_number = 1 ∨ prevCompleted dbFresh "u" "c" mod1.module_number)) ∧
      (p'.is_unlocked = true →
        (get_module_detail dbFresh "u" "c" "m1").1 = .ok (mod1, p')) ∧
      (p'.is_unlocked = false →
        (get_module_detail dbFresh "u" "c" "m1").1 = .error .locked) :=
  ⟨rfl, get_module_detail_creates_and_gates dbFresh "u" "c" "m1" mod1 enr0
    (by with_unfolding_all rfl) (by with_unfolding_all rfl) rfl
    (by with_unfolding_all decide)⟩

/-! ### C6: re-submission after completion -/

/-- Field-level description of the `$set update_data` write: identity on
the key fields and on `is_unlocked`; attempts and last-attempt time are
overwritten from the read record; the best score is raised only on a
strictly greater score; completion fields are touched only on a fresh
pass. -/
theorem applyUpdate_fields (progress : ModuleProgress) (score : ℚ)
    (passed : Bool) (now : Nat) (p : ModuleProgress) :
    (applyUpdate progress score passed now p).user_id = p.user_id ∧
    (applyUpdate progress score passed now p).course_id = p.course_id ∧
    (applyUpdate progress score passed now p).module_id = p.module_id ∧
    (applyUpdate progress score passed now p).is_unlocked = p.is_unlocked ∧
    (applyUpdate progress score passed now p).quiz_attempts =
      progress.quiz_attempts + 1 ∧
    (applyUpdate progress score passed now p).last_attempt_at = some now ∧
    (applyUpdate progress score passed now p).best_score =
      (if progress.best_score < score then score else p.best_score) ∧
    ((applyUpdate progress score passed now p).is_completed = p.is_completed ∨
      (applyUpdate progress score passed now p).is_completed = true) ∧
    ((passed && !progress.is_completed) = false →
      (applyUpdate progress score passed now p).is_completed = p.is_completed ∧
      (applyUpdate progress score passed now p).completed_at = p.completed_at) := by
  unfold applyUpdate
  by_cases h1 : progress.best_score < score <;>
    by_cases h2 : (passed && !progress.is_completed) = true <;>
      simp [h1, h2]

/-- C6: a submission on a module whose progress record is already completed
still grades and returns a result; on the record the handler read, the
attempt counter is incremented and the best score raised only if the new
score is strictly greater, while `is_unlocked`, `is_completed` and the
first-pass `completed_at` are untouched; no record is created (the cascade
does not run again) and every other record is left entirely unchanged. -/
theorem submit_quiz_resubmission_frame (db : DB) (user course module_id : String)
    (answers : List Int) (now : Nat) (r : QuizResult) (db' : DB)
    (progress : ModuleProgress)
    (hs : submit_quiz db user course module_id answers now = (.ok r, db'))
    (hp : findProgress db user module_id = some progress)
    (hc : progress.is_completed = true) :
    db'.module_progress.length = db.module_progress.length ∧
    (∃ q, findProgress db' user module_id = some q ∧
      q.quiz_attempts = progress.quiz_attempts + 1 ∧
      q.best_score =
        (if progress.best_score < r.score then r.score else progress.best_score) ∧
      q.is_completed = true ∧
      q.completed_at = progress.completed_at ∧
      q.last_attempt_at = some now ∧
      q.is_unlocked = progress.is_unlocked) ∧
    (∀ i x y, db.module_progress.get? i = some x →
      db'.module_progress.get? i = some y →
      y.is_unlocked = x.is_unlocked ∧
      ((x.user_id = user ∧ x.module_id = module_id) ∨ y = x)) := by
  obtain ⟨m, progress', hm, hp', hunl, hlen, hpos, hgrade, htot, hscore,
    hpassed, hdb⟩ := submit_ok_inv db user course module_id answers now r db' hs
  rw [hp] at hp'
  obtain rfl : progress = progress' := Option.some_inj.mp hp'
  have hcond : (r.passed && !progress.is_completed) = false := by
    rw [hc]
    simp
  rw [hdb]
  have hlist : (applyWrites db user course module_id m progress r.score r.passed
      now).module_progress =
      updateFirst (fun p => p.user_id == user && p.module_id == module_id)
        (applyUpdate progress r.score r.passed now) db.module_progress := by
    unfold applyWrites
    rw [hcond]
    simp
  refine ⟨?_, ?_, ?_⟩
  · rw [hlist, updateFirst_length]
  · have hpfind : db.module_progress.find?
        (fun p => p.user_id == user && p.module_id == module_id) = some progress := hp
    have hfind := find?_updateFirst
      (fun p => p.user_id == user && p.module_id == module_id)
      (applyUpdate progress r.score r.passed now) db.module_progress progress hpfind
      (fun y => by
        obtain ⟨h1, h2, h3, -⟩ := applyUpdate_fields progress r.score r.passed now y
        simp only []
        rw [h1, h3])
    obtain ⟨f1, f2, f3, f4, f5, f6, f7, f8, f9⟩ :=
      applyUpdate_fields progress r.score r.passed now progress
    refine ⟨applyUpdate progress r.score r.passed now progress, ?_, f5, ?_, ?_, ?_, f6, f4⟩
    · unfold findProgress
      rw [hlist]
      exact hfind
    · rw [f7]
    · rw [(f9 hcond).1, hc]
    · exact (f9 hcond).2
  · intro i x y hx hy
    rw [hlist] at hy
    rcases updateFirst_get? _ _ _ _ _ _ hx hy with hcase | ⟨hpx, hcase⟩
    · exact ⟨by rw [hcase], Or.inr hcase⟩
    · obtain ⟨-, -, -, f4, -⟩ := applyUpdate_fields progress r.score r.passed now x
      simp only [Bool.and_eq_true, beq_iff_eq] at hpx
      exact ⟨by rw [hcase, f4], Or.inl hpx⟩

/-- Store in which module 2 is already completed (best score 1, one
attempt). -/
def dbDone2 : DB :=
  { enrollments := [enr0], modules := [mod1, mod2, mod3],
    module_progress := [prog2done] }

/-- The result of the failing one-answer re-submission on module 2. -/
def rRepeat : QuizResult :=
  { score := 0, total_questions := 1, correct_answers := 0, passed := false,
    questions_review := [{ question_number := 1, question := "q",
                           user_answer := "b", correct_answer := "a",
                           is_correct := false, explanation := "e" }] }

/-- Module 2's record after that re-submission: one more attempt, best
score and completion data untouched. -/
def prog2repeat : ModuleProgress :=
  { user_id := "u", course_id := "c", module_id := "m2", is_unlocked := true,
    is_completed := true, quiz_attempts := 2, best_score := 1,
    last_attempt_at := some 9, completed_at := some 7 }

/-- The store after the re-submission. -/
def dbRepeat2 : DB :=
  { enrollments := [enr0], modules := [mod1, mod2, mod3],
    module_progress := [prog2repeat] }

/-- C6 witness: the failing re-submission on the completed module 2 keeps
the store the same size (no cascade re-run, no new record). -/
theorem submit_quiz_resubmission_frame_witness :
    prog2done.is_completed = true ∧
    dbRepeat2.module_progress.length = dbDone2.module_progress.length :=
  ⟨rfl, (submit_quiz_resubmission_frame dbDone2 "u" "c" "m2" [1] 9 rRepeat
    dbRepeat2 prog2done (by with_unfolding_all rfl) (by with_unfolding_all rfl)
    rfl).1⟩

/-! ### C3: cascade-unlock of the next module -/

/-- C3: across any completed `submit_quiz` call, (A) the only record whose
`is_unlocked` can change belongs to the submitting learner and is keyed to
the module numbered `module_number + 1` in the same course, and it can only
change to `true`; (B) on a passing submission of a not-yet-completed
module, that next module's record is set unlocked if it exists and is
created unlocked otherwise, and nothing is created when no next module
exists; (C) a failing submission changes no unlock state at all. The
module-id uniqueness hypothesis is the catalog's primary-key guarantee. -/
theorem submit_quiz_cascade_unlock (db : DB) (user course module_id : String)
    (answers : List Int) (now : Nat) (r : QuizResult) (db' : DB)
    (m : Module) (progress : ModuleProgress)
    (hm : findModule db course module_id = some m)
    (hp : findProgress db user module_id = some progress)
    (hs : submit_quiz db user course module_id answers now = (.ok r, db'))
    (hidu : ∀ m1 ∈ db.modules, ∀ m2 ∈ db.modules, m1.id = m2.id → m1 = m2) :
    (∀ i x y, db.module_progress.get? i = some x →
      db'.module_progress.get? i = some y →
      (y.is_unlocked = x.is_unlocked ∨
        (y.is_unlocked = true ∧ x.user_id = user ∧
          ∃ nm, findModuleByNumber db course (m.module_number + 1) = some nm ∧
            x.module_id = nm.id))) ∧
    (r.passed = true → progress.is_completed = false →
      (∀ nm, findModuleByNumber db course (m.module_number + 1) = some nm →
        (∀ np, findProgress db user nm.id = some np →
          ∃ q, findProgress db' user nm.id = some q ∧ q.is_unlocked = true) ∧
        (findProgress db user nm.id = none →
          db'.module_progress.length = db.module_progress.length + 1 ∧
          db'.module_progress.get? db.module_progress.length =
            some { user_id := user, course_id := course, module_id := nm.id,
                   is_unlocked := true })) ∧
      (findModuleByNumber db course (m.module_number + 1) = none →
        db'.module_progress.length = db.module_progress.length)) ∧
    (r.passed = false →
      db'.module_progress.length = db.module_progress.length ∧
      ∀ i x y, db.module_progress.get? i = some x →
        db'.module_progress.get? i = some y →
        y.is_unlocked = x.is_unlocked) := by
  obtain ⟨m', progress', hm', hp', hunl, hlen, hpos, hgrade, htot, hscore,
    hpassed, hdb⟩ := submit_ok_inv db user course module_id answers now r db' hs
  rw [hm] at hm'
  obtain rfl : m = m' := Option.some_inj.mp hm'
  rw [hp] at hp'
  obtain rfl : progress = progress' := Option.some_inj.mp hp'
  have hmP := List.find?_some hm
  have hmMem := List.mem_of_find?_eq_some hm
  simp only [Bool.and_eq_true, beq_iff_eq] at hmP
  by_cases hcond : (r.passed && !progress.is_completed) = true
  · -- the cascade runs before the record update
    have hlist : (applyWrites db user course module_id m progress r.score
        r.passed now).module_progress =
        updateFirst (fun p => p.user_id == user && p.module_id == module_id)
          (applyUpdate progress r.score r.passed now)
          (cascadeUnlock db user course m).module_progress := by
      unfold applyWrites
      rw [hcond]
      simp
    rw [hdb]
    refine ⟨?_, ?_, ?_⟩
    · intro i x y hx hy
      obtain ⟨y1, hy1, k1, k2, k3, k4, k5, k6, k7, k8, hun⟩ :=
        cascade_get? db user course m i x hx
      rw [hlist] at hy
      have hyy1 : y.is_unlocked = y1.is_unlocked := by
        rcases updateFirst_get? _ _ _ _ _ _ hy1 hy with hcase | ⟨-, hcase⟩
        · rw [hcase]
        · obtain ⟨-, -, -, f4, -⟩ :=
            applyUpdate_fields progress r.score r.passed now y1
          rw [hcase, f4]
      rcases hun with hun | ⟨hun, hu2, hnm⟩
      · exact Or.inl (by rw [hyy1, hun])
      · exact Or.inr ⟨by rw [hyy1, hun], hu2, hnm⟩
    · intro hpass hnc
      refine ⟨fun nm hnm => ?_, fun hnone => ?_⟩
      · have hnmP := List.find?_some hnm
        have hnmMem := List.mem_of_find?_eq_some hnm
        simp only [Bool.and_eq_true, beq_iff_eq] at hnmP
        have hne : nm.id ≠ module_id := by
          intro hid
          have hnm_eq : nm = m := hidu nm hnmMem m hmMem (hid.trans hmP.1.symm)
          rw [hnm_eq] at hnmP
          omega
        constructor
        · intro np hnp
          have hcas : (cascadeUnlock db user course m).module_progress =
              updateFirst (fun p => p.user_id == user && p.module_id == nm.id)
                (fun p => { p with is_unlocked := true })
                db.module_progress := by
            simp [cascadeUnlock, hnm, hnp]
          have hnpfind : db.module_progress.find?
              (fun p => p.user_id == user && p.module_id == nm.id) = some np := hnp
          have hmid : (updateFirst
              (fun p => p.user_id == user && p.module_id == nm.id)
              (fun p => { p with is_unlocked := true })
              db.module_progress).find?
              (fun p => p.user_id == user && p.module_id == nm.id) =
              some { np with is_unlocked := true } :=
            find?_updateFirst _ _ _ _ hnpfind (fun y => rfl)
          have hfin : (applyWrites db user course module_id m progress r.score
              r.passed now).module_progress.find?
              (fun p => p.user_id == user && p.module_id == nm.id) =
              some { np with is_unlocked := true } := by
            rw [hlist, hcas]
            rw [find?_updateFirst_disjoint _ _ _ _
              (fun y => by
                obtain ⟨h1, -, h3, -⟩ :=
                  applyUpdate_fields progress r.score r.passed now y
                simp only [h1, h3])
              (fun y hy => by
                simp only [Bool.and_eq_true, beq_iff_eq] at hy
                simp [hy.2, Ne.symm hne])]
            exact hmid
          exact ⟨{ np with is_unlocked := true },
            by unfold findProgress; exact hfin, rfl⟩
        · intro hnone
          have hcas : (cascadeUnlock db user course m).module_progress =
              db.module_progress ++
                [{ user_id := user, course_id := course, module_id := nm.id,
                   is_unlocked := true }] := by
            simp [cascadeUnlock, hnm, hnone]
          have hlen1 : (applyWrites db user course module_id m progress r.score
              r.passed now).module_progress.length =
              db.module_progress.length + 1 := by
            rw [hlist, updateFirst_length, hcas, List.length_append]
            rfl
          refine ⟨hlen1, ?_⟩
          have hbase : (cascadeUnlock db user course m).module_progress.get?
              db.module_progress.length =
              some { user_id := user, course_id := course, module_id := nm.id,
                     is_unlocked := true } := by
            rw [hcas]
            exact List.get?_concat_length _ _
          cases hy : (applyWrites db user course module_id m progress r.score
              r.passed now).module_progress.get? db.module_progress.length with
          | none =>
            exfalso
            have hlarge := List.get?_eq_none.mp hy
            omega
          | some y =>
            have hy' := hy
            rw [hlist] at hy'
            rcases updateFirst_get? _ _ _ _ _ _ hbase hy' with hcase | ⟨hpx, -⟩
            · rw [hcase]
            · exfalso
              simp only [Bool.and_eq_true, beq_iff_eq] at hpx
              exact hne hpx.2
      · have hcas : (cascadeUnlock db user course m).module_progress =
            db.module_progress := by
          simp [cascadeUnlock, hnone]
        rw [hlist, hcas, updateFirst_length]
    · intro hfail
      rw [hfail] at hcond
      simp at hcond
  · -- no cascade: the store update is the single record write
    rw [Bool.not_eq_true] at hcond
    have hlist : (applyWrites db user course module_id m progress r.score
        r.passed now).module_progress =
        updateFirst (fun p => p.user_id == user && p.module_id == module_id)
          (applyUpdate progress r.score r.passed now) db.module_progress := by
      unfold applyWrites
      rw [hcond]
      simp
    rw [hdb]
    have hpoint : ∀ i x y, db.module_progress.get? i = some x →
        (updateFirst (fun p => p.user_id == user && p.module_id == module_id)
          (applyUpdate progress r.score r.passed now)
          db.module_progress).get? i = some y →
        y.is_unlocked = x.is_unlocked := by
      intro i x y hx hy
      rcases updateFirst_get? _ _ _ _ _ _ hx hy with hcase | ⟨-, hcase⟩
      · rw [hcase]
      · obtain ⟨-, -, -, f4, -⟩ :=
          applyUpdate_fields progress r.score r.passed now x
        rw [hcase, f4]
    refine ⟨fun i x y hx hy => Or.inl (hpoint i x y hx (by rw [← hlist]; exact hy)),
      fun hpass hnc => ?_, fun hfail => ⟨by rw [hlist, updateFirst_length], ?_⟩⟩
    · exfalso
      rw [hpass, hnc] at hcond
      simp at hcond
    · intro i x y hx hy
      exact hpoint i x y hx (by rw [← hlist]; exact hy)

/-- Module 1's record after passing its quiz with all five answers right. -/
def prog1done : ModuleProgress :=
  { user_id := "u", course_id := "c", module_id := "m1", is_unlocked := true,
    is_completed := true, quiz_attempts := 1, best_score := 1,
    last_attempt_at := some 7, completed_at := some 7 }

/-- The cascade-created record for module 2. -/
def prog2new : ModuleProgress :=
  { user_id := "u", course_id := "c", module_id := "m2", is_unlocked := true }

/-- One all-correct review row for the five-question quiz. -/
def rowOk (n : Nat) : ReviewItem :=
  { question_number := n, question := "q", user_answer := "a",
    correct_answer := "a", is_correct := true, explanation := "e" }

/-- The result of the all-correct submission on module 1. -/
def rPass1 : QuizResult :=
  { score := 1, total_questions := 5, correct_answers := 5, passed := true,
    questions_review := [rowOk 1, rowOk 2, rowOk 3, rowOk 4, rowOk 5] }

/-- The store after that submission: module 1 completed, module 2 created
unlocked. -/
def dbPass1 : DB :=
  { enrollments := [enr0], modules := [mod1, mod2, mod3],
    module_progress := [prog1done, prog2new] }

/-- C3 witness: a clean pass of module 1 cascade-creates module 2's record
unlocked at the end of the store. -/
theorem submit_quiz_cascade_unlock_witness :
    findModuleByNumber dbUnlocked1 "c" (mod1.module_number + 1) = some mod2 ∧
    findProgress dbUnlocked1 "u" "m2" = none ∧
    dbPass1.module_progress.length = dbUnlocked1.module_progress.length + 1 ∧
    dbPass1.module_progress.get? dbUnlocked1.module_progress.length =
      some { user_id := "u", course_id := "c", module_id := "m2",
             is_unlocked := true } := by
  have h := (submit_quiz_cascade_unlock dbUnlocked1 "u" "c" "m1" [0, 0, 0, 0, 0]
    7 rPass1 dbPass1 mod1 prog1 (by with_unfolding_all rfl)
    (by with_unfolding_all rfl) (by with_unfolding_all rfl)
    (by with_unfolding_all decide)).2.1 (by with_unfolding_all rfl) rfl
  obtain ⟨hlen1, hget⟩ :=
    ((h.1 mod2 (by with_unfolding_all rfl)).2) (by with_unfolding_all rfl)
  exact ⟨by with_unfolding_all rfl, rfl, hlen1, hget⟩

/-! ### C5: forward-only transitions -/

/-- Single-record monotonicity: unlock and completion only move forward,
and the best score never decreases. -/
def progMono (x y : ModuleProgress) : Prop :=
  (x.is_unlocked = true → y.is_unlocked = true) ∧
  (x.is_completed = true → y.is_completed = true) ∧
  x.best_score ≤ y.best_score

theorem progMono_refl (x : ModuleProgress) : progMono x x :=
  ⟨fun h => h, fun h => h, le_refl _⟩

/-- C5: for every pre-existing progress record and every engine operation
(the lazily-inserting module detail, the read-only quiz fetch, and the
mutating quiz submission — under the data model's one-record-per-
(learner, module) invariant), `is_unlocked` and `is_completed` transition
only false→true and `best_score` never decreases. -/
theorem progress_monotone (db : DB) (user course module_id : String)
    (answers : List Int) (now : Nat) :
    (∀ i x y, db.module_progress.get? i = some x →
      ((get_module_detail db user course module_id).2).module_progress.get? i
        = some y → progMono x y) ∧
    ((get_module_quiz db user course module_id).2 = db) ∧
    (db.module_progress.countP
        (fun p => p.user_id == user && p.module_id == module_id) ≤ 1 →
      ∀ i x y, db.module_progress.get? i = some x →
        ((submit_quiz db user course module_id answers now).2).module_progress.get? i
          = some y → progMono x y) := by
  refine ⟨?_, ?_, ?_⟩
  · have hdet : (get_module_detail db user course module_id).2 = db ∨
        ∃ p', (get_module_detail db user course module_id).2.module_progress =
          db.module_progress ++ [p'] := by
      unfold get_module_detail
      split
      · exact Or.inl rfl
      · split
        · exact Or.inl rfl
        · split
          · split <;> exact Or.inl rfl
          · simp only []
            split <;> exact Or.inr ⟨_, rfl⟩
    intro i x y hx hy
    have hi : i < db.module_progress.length := by
      by_contra hc
      push_neg at hc
      rw [List.get?_eq_none.mpr hc] at hx
      exact Option.noConfusion hx
    rcases hdet with h | ⟨p', h⟩
    · rw [h, hx] at hy
      obtain rfl : x = y := Option.some_inj.mp hy
      exact progMono_refl x
    · rw [h, List.get?_append hi, hx] at hy
      obtain rfl : x = y := Option.some_inj.mp hy
      exact progMono_refl x
  · unfold get_module_quiz
    split
    · rfl
    · split
      · rfl
      · split
        · rfl
        · split <;> rfl
  · intro hcount i x y hx hy
    rcases submit_db_cases db user course module_id answers now with
      hsame | ⟨m, progress, score, passed, hm, hp, heq⟩
    · rw [hsame, hx] at hy
      obtain rfl : x = y := Option.some_inj.mp hy
      exact progMono_refl x
    · rw [heq] at hy
      have hpfind : db.module_progress.find?
          (fun p => p.user_id == user && p.module_id == module_id) =
          some progress := hp
      by_cases hcond : (passed && !progress.is_completed) = true
      · have hlist : (applyWrites db user course module_id m progress score
            passed now).module_progress =
            updateFirst (fun p => p.user_id == user && p.module_id == module_id)
              (applyUpdate progress score passed now)
              (cascadeUnlock db user course m).module_progress := by
          unfold applyWrites
          rw [hcond]
          simp
        rw [hlist] at hy
        obtain ⟨y1, hy1, k1, k2, k3, k4, k5, k6, k7, k8, hun⟩ :=
          cascade_get? db user course m i x hx
        have hunl_mono : x.is_unlocked = true → y1.is_unlocked = true := by
          intro hxu
          rcases hun with hun | ⟨hun, -, -⟩
          · rw [hun, hxu]
          · exact hun
        rcases updateFirst_get? _ _ _ _ _ _ hy1 hy with hcase | ⟨hpy1, hcase⟩
        · subst hcase
          exact ⟨hunl_mono, fun hc => by rw [k5, hc], le_of_eq k4.symm⟩
        · have hpx : (x.user_id == user && x.module_id == module_id) = true := by
            rw [← k1, ← k3]
            exact hpy1
          have hxp : db.module_progress.find?
              (fun p => p.user_id == user && p.module_id == module_id) =
              some x := countP_le_one_find? _ _ hcount i x hx hpx
          rw [hpfind] at hxp
          obtain rfl : x = progress := (Option.some_inj.mp hxp).symm
          obtain ⟨-, -, -, f4, -, -, f7, f8, -⟩ :=
            applyUpdate_fields x score passed now y1
          subst hcase
          refine ⟨fun hxu => by rw [f4]; exact hunl_mono hxu, ?_, ?_⟩
          · intro hc
            rcases f8 with f8 | f8
            · rw [f8, k5, hc]
            · exact f8
          · rw [f7, k4]
            split
            · exact le_of_lt (by assumption)
            · exact le_refl _
      · have hcond' : (passed && !progress.is_completed) = false :=
          Bool.not_eq_true _ ▸ (Bool.eq_false_iff.mpr hcond)
        have hlist : (applyWrites db user course module_id m progress score
            passed now).module_progress =
            updateFirst (fun p => p.user_id == user && p.module_id == module_id)
              (applyUpdate progress score passed now) db.module_progress := by
          unfold applyWrites
          rw [hcond']
          simp
        rw [hlist] at hy
        rcases updateFirst_get? _ _ _ _ _ _ hx hy with hcase | ⟨hpx, hcase⟩
        · subst hcase
          exact progMono_refl _
        · have hxp : db.module_progress.find?
              (fun p => p.user_id == user && p.module_id == module_id) =
              some x := countP_le_one_find? _ _ hcount i x hx hpx
          rw [hpfind] at hxp
          obtain rfl : x = progress := (Option.some_inj.mp hxp).symm
          obtain ⟨-, -, -, f4, -, -, f7, f8, -⟩ :=
            applyUpdate_fields x score passed now x
          subst hcase
          refine ⟨fun hxu => by rw [f4]; exact hxu, ?_, ?_⟩
          · intro hc
            rcases f8 with f8 | f8
            · rw [f8, hc]
            · exact f8
          · rw [f7]
            split
            · exact le_of_lt (by assumption)
            · exact le_refl _

/-- C5 witness: across the all-correct submission on module 1, the
pre-existing record moves forward only. -/
theorem progress_monotone_witness :
    dbUnlocked1.module_progress.countP
      (fun p => p.user_id == "u" && p.module_id == "m1") ≤ 1 ∧
    progMono prog1 prog1done :=
  ⟨by decide,
    (progress_monotone dbUnlocked1 "u" "c" "m1" [0, 0, 0, 0, 0] 7).2.2
      (by decide) 0 prog1 prog1done (by with_unfolding_all rfl)
      (by with_unfolding_all rfl)⟩

/-! ### C8: out-of-range submitted option indices -/

/-- A stored correct-answer index inside the option list always renders. -/
theorem pyGet_in_range {α : Type} (l : List α) (c : Int) (h0 : 0 ≤ c)
    (hl : c < (l.length : Int)) : ∃ v, pyGet l c = some v := by
  unfold pyGet
  simp only []
  rw [if_neg (by omega : ¬c < 0), if_pos h0]
  cases hv : l.get? c.toNat with
  | none =>
    exfalso
    have hge := List.get?_eq_none.mp hv
    omega
  | some v => exact ⟨v, rfl⟩

/-- Grading a question with a well-formed stored answer never fails. -/
theorem gradeQuestion_ok (i : Nat) (a : Int) (q : QuizQuestion)
    (h0 : 0 ≤ q.correct_answer)
    (hlt : q.correct_answer < (q.options.length : Int)) :
    ∃ item, gradeQuestion i a q = .ok item ∧
      item.is_correct = (a == q.correct_answer) ∧
      item.user_answer = renderUserAnswer q a := by
  obtain ⟨v, hv⟩ := pyGet_in_range q.options q.correct_answer h0 hlt
  exact ⟨_, by unfold gradeQuestion; rw [hv], rfl, rfl⟩

/-- The grading loop never fails on well-formed questions. -/
theorem gradeLoop_ok (pairs : List (Int × QuizQuestion)) : ∀ (k : Nat),
    (∀ pr ∈ pairs, 0 ≤ pr.2.correct_answer ∧
      pr.2.correct_answer < (pr.2.options.length : Int)) →
    ∃ res, gradeLoop k pairs = .ok res := by
  induction pairs with
  | nil => exact fun k _ => ⟨(0, []), rfl⟩
  | cons pr rest ih =>
    intro k hwf
    obtain ⟨a, q⟩ := pr
    obtain ⟨h0, hlt⟩ := hwf (a, q) (List.mem_cons_self _ _)
    obtain ⟨item, hitem, -, -⟩ := gradeQuestion_ok k a q h0 hlt
    obtain ⟨⟨c, items⟩, hrest⟩ :=
      ih (k + 1) (fun pr hpr => hwf pr (List.mem_cons_of_mem _ hpr))
    exact ⟨_, by unfold gradeLoop; rw [hitem, hrest]⟩

/-- C8: a submitted option index that is negative or at least the option
count is graded incorrect and rendered as the "No answer" sentinel (given
the data model's well-formed zero-based stored correct index), and a
submission over well-formed questions never raises: the handler returns a
result. -/
theorem out_of_range_answer_safe :
    (∀ (i : Nat) (a : Int) (q : QuizQuestion),
      0 ≤ q.correct_answer → q.correct_answer < (q.options.length : Int) →
      (a < 0 ∨ (q.options.length : Int) ≤ a) →
      ∃ item, gradeQuestion i a q = .ok item ∧ item.is_correct = false ∧
        item.user_answer = "No answer") ∧
    (∀ db user course module_id answers now m progress,
      (findEnrollment db user course).isSome = true →
      findModule db course module_id = some m →
      findProgress db user module_id = some progress →
      progress.is_unlocked = true →
      answers.length = m.assessment.quiz_questions.length →
      m.assessment.quiz_questions.length ≠ 0 →
      (∀ q ∈ m.assessment.quiz_questions, 0 ≤ q.correct_answer ∧
        q.correct_answer < (q.options.length : Int)) →
      ∃ r db', submit_quiz db user course module_id answers now = (.ok r, db')) := by
  constructor
  · intro i a q h0 hlt hout
    obtain ⟨item, hitem, hcor, hua⟩ := gradeQuestion_ok i a q h0 hlt
    refine ⟨item, hitem, ?_, ?_⟩
    · rw [hcor]
      apply beq_eq_false_iff_ne.mpr
      rcases hout with h | h <;> omega
    · rw [hua]
      unfold renderUserAnswer
      rw [if_neg]
      rintro ⟨h1, h2⟩
      rcases hout with h | h <;> omega
  · intro db user course module_id answers now m progress he hm hp hunl hlen hq0 hwf
    obtain ⟨e, he⟩ := Option.isSome_iff_exists.mp he
    obtain ⟨⟨cc, review⟩, hgl⟩ :=
      gradeLoop_ok (answers.zip m.assessment.quiz_questions) 0
        (fun pr hpr => hwf pr.2 (List.of_mem_zip hpr).2)
    refine ⟨{ score := (cc : ℚ) / (m.assessment.quiz_questions.length : ℚ),
              total_questions := m.assessment.quiz_questions.length,
              correct_answers := cc,
              passed := decide (m.assessment.passing_score ≤
                (cc : ℚ) / (m.assessment.quiz_questions.length : ℚ)),
              questions_review := review },
            applyWrites db user course module_id m progress
              ((cc : ℚ) / (m.assessment.quiz_questions.length : ℚ))
              (decide (m.assessment.passing_score ≤
                (cc : ℚ) / (m.assessment.quiz_questions.length : ℚ))) now, ?_⟩
    simp [submit_quiz, he, hm, hp, hunl, hlen, hgl, hq0]

/-- C8 witness: submitting option index 7 against the four-option question
grades incorrect and renders "No answer". -/
theorem out_of_range_answer_safe_witness :
    (0 : Int) ≤ q0.correct_answer ∧
    q0.correct_answer < (q0.options.length : Int) ∧
    ((7 : Int) < 0 ∨ (q0.options.length : Int) ≤ 7) ∧
    ∃ item, gradeQuestion 0 7 q0 = .ok item ∧ item.is_correct = false ∧
      item.user_answer = "No answer" :=
  ⟨by decide, by decide, Or.inr (by decide),
    out_of_range_answer_safe.1 0 7 q0 (by decide) (by decide)
      (Or.inr (by decide))⟩

end Backend
